import Mathlib

/-!
# Back-navigation suppressor (`static/disable_back.js`)

A shallow embedding of the script and of the part of the host browser it talks to:
the session history, `location.href`, `alert`, `Event.preventDefault`, the
`window.onpopstate` slot and the `keydown` listener list of `document`.

The script is embedded function by function (`init` is the body of the immediately
invoked function, `onpopstate` and `keydownListener` are the two callbacks).  Every
host call the script makes is appended to a log, so that "calls X exactly once" and
"calls X before Y" are statements about that log.
-/

namespace DisableBack

/-! ## Host environment -/

/-- A session-history entry: its serialized state (`none` is JavaScript `null`) and its URL. -/
structure Entry where
  state : Option String
  url : String
deriving DecidableEq, Repr

/-- The session history of the tab, centred on the current entry.
`below` holds the entries under the current one (nearest first, reached by going back),
`above` those over it (nearest first, reached by going forward). -/
structure History where
  below : List Entry
  current : Entry
  above : List Entry
deriving DecidableEq, Repr

/-- The history stack in chronological order, oldest entry first. -/
def History.entries (h : History) : List Entry :=
  h.below.reverse ++ h.current :: h.above

/-- Index of the current entry in `entries`. -/
def History.position (h : History) : Nat :=
  h.below.length

/-- The newest entry of the stack. -/
def History.top (h : History) : Entry :=
  match h.above.getLast? with
  | some e => e
  | none => h.current

/-- The host's limit on the number of session-history entries of a tab (50 in Chromium). -/
def maxSessionHistoryEntries : Nat := 50

/-- Host semantics of `history.pushState(state, _, url)`: every entry over the current one
is dropped, a new entry is appended and becomes the current one. The host keeps at most
`maxSessionHistoryEntries` entries: when the entries that remain already fill the limit,
the oldest are evicted to make room for the new one. -/
def History.push (state : Option String) (url : String) (h : History) : History :=
  { below := (h.current :: h.below).take (maxSessionHistoryEntries - 1),
    current := { state := state, url := url },
    above := [] }

/-- Host semantics of a one-step back traversal; `none` when there is nothing to go back to. -/
def History.back (h : History) : Option History :=
  match h.below with
  | [] => none
  | e :: rest => some { below := rest, current := e, above := h.current :: h.above }

/-- A call from the script into the host, as recorded in the log. -/
inductive Call where
  | pushState (state : Option String) (title : Option String) (url : String)
  | alert (message : String)
  | preventDefault
deriving DecidableEq, Repr

/-- What the script can observe of an event target: `tagName` (`none` is `undefined`, for a
target that is not an element) and whether the node is editable through `contenteditable`. -/
structure Target where
  tagName : Option String
  isContentEditable : Bool
deriving DecidableEq, Repr

/-- A `keydown` event: `e.key` (`none` is `undefined`) and `e.target`. -/
structure KeyEvent where
  key : Option String
  target : Target
deriving DecidableEq, Repr

/-- A `popstate` event, carrying the state of the entry traversed to. -/
structure PopStateEvent where
  state : Option String
deriving DecidableEq, Repr

/-- The page as the script sees it. `onpopstateSet` tells whether `window.onpopstate` holds
the script's callback, `keydownListeners` counts the registrations of the script's callback
on `document`, `calls` is the log of host calls, oldest first. -/
structure World where
  history : History
  activeElement : Target
  onpopstateSet : Bool
  keydownListeners : Nat
  calls : List Call
deriving DecidableEq, Repr

/-- The host keeps `location.href` equal to the URL of the current history entry. -/
def location_href (w : World) : String :=
  w.history.current.url

/-- The call `history.pushState(state, title, url)`. -/
def history_pushState (state title : Option String) (url : String) (w : World) : World :=
  { w with history := w.history.push state url,
           calls := w.calls ++ [Call.pushState state title url] }

/-- The call `alert(message)`. -/
def alert (message : String) (w : World) : World :=
  { w with calls := w.calls ++ [Call.alert message] }

/-- The call `e.preventDefault()`. -/
def preventDefault (w : World) : World :=
  { w with calls := w.calls ++ [Call.preventDefault] }

/-- The JavaScript `Array.prototype.includes` on an array of strings; `undefined` is
never an element of such an array. -/
def includes (arr : List String) (x : Option String) : Bool :=
  match x with
  | none => false
  | some s => arr.contains s

/-! ## The script -/

/-- The function assigned to `window.onpopstate`; `msg` is the value of the string literal
passed to `alert`, that is the `tr(...)` template as rendered into the served script. -/
def onpopstate (msg : String) (_event : PopStateEvent) (w : World) : World :=
  let w1 := history_pushState none none (location_href w) w
  alert msg w1

/-- The function registered with `document.addEventListener('keydown', ...)`. -/
def keydownListener (e : KeyEvent) (w : World) : World :=
  if e.key == some "Backspace" && !(includes ["INPUT", "TEXTAREA"] e.target.tagName) then
    preventDefault w
  else
    w

/-- The body of the immediately invoked function: one `pushState`, then the two
registrations. -/
def init (w : World) : World :=
  let w1 := history_pushState none none (location_href w) w
  let w2 := { w1 with onpopstateSet := true }
  { w2 with keydownListeners := w2.keydownListeners + 1 }

/-! ## Event delivery -/

/-- Delivery of a `popstate` event to `window`. -/
def dispatchPopstate (msg : String) (ev : PopStateEvent) (w : World) : World :=
  if w.onpopstateSet then onpopstate msg ev w else w

/-- Delivery of a `keydown` event to `document`: each registration runs once. -/
def dispatchKeydown (e : KeyEvent) (w : World) : World :=
  (keydownListener e)^[w.keydownListeners] w

/-- What can happen to the page: the user goes back one step (the traversal, then the
`popstate` event it fires), a `popstate` event is delivered on its own, or a key goes down. -/
inductive Event where
  | back
  | popstate (ev : PopStateEvent)
  | keydown (e : KeyEvent)
deriving DecidableEq, Repr

/-- One event, handled to completion. -/
def step (msg : String) (w : World) : Event → World
  | Event.back =>
    match w.history.back with
    | none => w
    | some h => dispatchPopstate msg { state := h.current.state } { w with history := h }
  | Event.popstate ev => dispatchPopstate msg ev w
  | Event.keydown e => dispatchKeydown e w

/-- A sequence of events, handled in order. -/
def run (msg : String) (w : World) (evs : List Event) : World :=
  evs.foldl (step msg) w

/-- Number of `pushState` calls in a log. -/
def countPushState : List Call → Nat
  | [] => 0
  | Call.pushState _ _ _ :: cs => countPushState cs + 1
  | _ :: cs => countPushState cs

/-- Number of `alert` calls in a log. -/
def countAlert : List Call → Nat
  | [] => 0
  | Call.alert _ :: cs => countAlert cs + 1
  | _ :: cs => countAlert cs

/-- Number of `preventDefault` calls in a log. -/
def countPreventDefault : List Call → Nat
  | [] => 0
  | Call.preventDefault :: cs => countPreventDefault cs + 1
  | _ :: cs => countPreventDefault cs

/-- The spec's notion of an element that accepts text entry: an input, a multi-line text
field, or an element editable in another way. -/
def textInputCapable (t : Target) : Prop :=
  t.tagName = some "INPUT" ∨ t.tagName = some "TEXTAREA" ∨ t.isContentEditable = true

instance (t : Target) : Decidable (textInputCapable t) := by
  unfold textInputCapable; infer_instance

/-! ## Concrete pages used as examples -/

/-- A freshly loaded page at `/task` with one older entry under it. -/
def page0 : World :=
  { history := { below := [{ state := none, url := "/consent" }],
                 current := { state := none, url := "/task" }, above := [] },
    activeElement := { tagName := some "BODY", isContentEditable := false },
    onpopstateSet := false, keydownListeners := 0, calls := [] }

/-- A freshly loaded page at `/task` on a full history: `/consent` is the oldest entry,
48 entries for `/bare` lie between it and the page, 50 entries in all. -/
def fullPage : World :=
  { history := { below := List.replicate 48 { state := none, url := "/bare" }
                   ++ [{ state := none, url := "/consent" }],
                 current := { state := none, url := "/task" }, above := [] },
    activeElement := { tagName := some "BODY", isContentEditable := false },
    onpopstateSet := false, keydownListeners := 0, calls := [] }

/-- Backspace pressed on the document body. -/
def backspaceOnBody : KeyEvent :=
  { key := some "Backspace", target := { tagName := some "BODY", isContentEditable := false } }

/-- Backspace pressed in a text input. -/
def backspaceInInput : KeyEvent :=
  { key := some "Backspace", target := { tagName := some "INPUT", isContentEditable := false } }

/-- Backspace pressed in a `contenteditable` block. -/
def backspaceInEditableDiv : KeyEvent :=
  { key := some "Backspace", target := { tagName := some "DIV", isContentEditable := true } }

/-- The letter `a` pressed on the document body. -/
def letterOnBody : KeyEvent :=
  { key := some "a", target := { tagName := some "BODY", isContentEditable := false } }

/-! ## Shared lemmas -/

/-- What a page looks like once the script has run: the handler is installed, the current
entry is the synthetic one (null state, the page URL), nothing lies over it, the stack is
within the host's limit, and the entry right under the current one carries the same URL. -/
def Armed (url : String) (w : World) : Prop :=
  w.onpopstateSet = true ∧ w.history.above = [] ∧
    w.history.current = { state := none, url := url } ∧
    w.history.below.length < maxSessionHistoryEntries ∧
    ∃ p rest, w.history.below = p :: rest ∧ p.url = url

lemma push_below (state : Option String) (url : String) (h : History) :
    (h.push state url).below = h.current :: h.below.take (maxSessionHistoryEntries - 2) := rfl

lemma entries_upto_current (h : History) :
    h.entries.take (h.position + 1) = (h.current :: h.below).reverse := by
  simp [History.entries, History.position, List.take_append_eq_append_take,
    List.take_of_length_le]

lemma push_below_length (state : Option String) (url : String) (h : History) :
    (h.push state url).below.length < maxSessionHistoryEntries := by
  simp only [History.push, List.length_take, maxSessionHistoryEntries]
  omega

lemma push_below_of_room (state : Option String) (url : String) (h : History)
    (hroom : h.below.length + 1 < maxSessionHistoryEntries) :
    (h.push state url).below = h.current :: h.below := by
  simp only [maxSessionHistoryEntries] at hroom
  rw [push_below, List.take_of_length_le]
  simp only [maxSessionHistoryEntries]
  omega

lemma onpopstate_calls (msg : String) (ev : PopStateEvent) (w : World) :
    (onpopstate msg ev w).calls
      = w.calls ++ [Call.pushState none none (location_href w), Call.alert msg] := by
  simp [onpopstate, alert, history_pushState]

lemma onpopstate_history (msg : String) (ev : PopStateEvent) (w : World) :
    (onpopstate msg ev w).history = w.history.push none (location_href w) := by
  simp [onpopstate, alert, history_pushState]

lemma onpopstate_installed (msg : String) (ev : PopStateEvent) (w : World) :
    (onpopstate msg ev w).onpopstateSet = w.onpopstateSet := by
  simp [onpopstate, alert, history_pushState]

lemma keydownListener_cases (e : KeyEvent) (w : World) :
    keydownListener e w = w ∨ keydownListener e w = preventDefault w := by
  unfold keydownListener
  split
  · exact Or.inr rfl
  · exact Or.inl rfl

lemma keydownListener_history (e : KeyEvent) (w : World) :
    (keydownListener e w).history = w.history := by
  rcases keydownListener_cases e w with h | h
  · rw [h]
  · rw [h]; rfl

lemma keydownListener_installed (e : KeyEvent) (w : World) :
    (keydownListener e w).onpopstateSet = w.onpopstateSet := by
  rcases keydownListener_cases e w with h | h
  · rw [h]
  · rw [h]; rfl

lemma keydownListener_countPushState (e : KeyEvent) (w : World) :
    countPushState (keydownListener e w).calls = countPushState w.calls := by
  rcases keydownListener_cases e w with h | h
  · rw [h]
  · rw [h]
    simp only [preventDefault]
    induction w.calls with
    | nil => rfl
    | cons c cs ih => cases c <;> simp [countPushState, ih]

lemma keydownListener_countAlert (e : KeyEvent) (w : World) :
    countAlert (keydownListener e w).calls = countAlert w.calls := by
  rcases keydownListener_cases e w with h | h
  · rw [h]
  · rw [h]
    simp only [preventDefault]
    induction w.calls with
    | nil => rfl
    | cons c cs ih => cases c <;> simp [countAlert, ih]

lemma iterate_keydownListener (e : KeyEvent) (n : Nat) (w : World) :
    ((keydownListener e)^[n] w).history = w.history ∧
    ((keydownListener e)^[n] w).onpopstateSet = w.onpopstateSet ∧
    countPushState ((keydownListener e)^[n] w).calls = countPushState w.calls ∧
    countAlert ((keydownListener e)^[n] w).calls = countAlert w.calls := by
  induction n generalizing w with
  | zero => simp
  | succ n ih =>
    rw [Function.iterate_succ_apply]
    obtain ⟨h1, h2, h3, h4⟩ := ih (keydownListener e w)
    exact ⟨h1.trans (keydownListener_history e w), h2.trans (keydownListener_installed e w),
      h3.trans (keydownListener_countPushState e w), h4.trans (keydownListener_countAlert e w)⟩

lemma armed_init (w : World) : Armed (location_href w) (init w) := by
  refine ⟨rfl, rfl, rfl, push_below_length none (location_href w) w.history,
    w.history.current, w.history.below.take (maxSessionHistoryEntries - 2), rfl, rfl⟩

lemma armed_back (msg url : String) (w : World) (h : Armed url w) :
    (step msg w Event.back).history = w.history ∧
    (step msg w Event.back).onpopstateSet = true ∧
    (step msg w Event.back).calls
      = w.calls ++ [Call.pushState none none url, Call.alert msg] := by
  obtain ⟨hset, habove, hcur, hlen, p, rest, hbelow, hp⟩ := h
  obtain ⟨hist, act, set, kl, calls⟩ := w
  obtain ⟨below, current, above⟩ := hist
  simp only at hset habove hcur hlen hbelow
  subst hset habove hcur hbelow hp
  have hroom : rest.length + 1 < maxSessionHistoryEntries := by simpa using hlen
  have hpush := push_below_of_room none p.url
    { below := rest, current := p, above := [{ state := none, url := p.url }] } hroom
  simp only at hpush
  have hhist : History.push none p.url
      { below := rest, current := p, above := [{ state := none, url := p.url }] }
      = { below := p :: rest, current := { state := none, url := p.url }, above := [] } := by
    rw [← hpush]; rfl
  simp [step, History.back, dispatchPopstate, onpopstate, alert, history_pushState,
    location_href, hhist]

lemma armed_step (msg url : String) (w : World) (ev : Event) (h : Armed url w) :
    Armed url (step msg w ev) := by
  cases ev with
  | back =>
    obtain ⟨h1, h2, _⟩ := armed_back msg url w h
    obtain ⟨_, habove, hcur, hlen, hbelow⟩ := h
    exact ⟨h2, h1 ▸ habove, h1 ▸ hcur, h1 ▸ hlen, h1 ▸ hbelow⟩
  | popstate pe =>
    obtain ⟨hset, _, hcur, _, _⟩ := h
    have hloc : location_href w = url := by simp [location_href, hcur]
    simp only [step, dispatchPopstate, hset, if_true]
    refine ⟨by rw [onpopstate_installed]; exact hset, ?_, ?_, ?_, ?_⟩
    · rw [onpopstate_history]; rfl
    · rw [onpopstate_history, hloc]; rfl
    · rw [onpopstate_history]; exact push_below_length none (location_href w) w.history
    · rw [onpopstate_history]
      exact ⟨w.history.current, w.history.below.take (maxSessionHistoryEntries - 2), rfl,
        by rw [hcur]⟩
  | keydown e =>
    obtain ⟨h1, h2, _, _⟩ := iterate_keydownListener e w.keydownListeners w
    obtain ⟨hset, habove, hcur, hlen, hbelow⟩ := h
    simp only [step, dispatchKeydown]
    exact ⟨h2.trans hset, h1 ▸ habove, h1 ▸ hcur, h1 ▸ hlen, h1 ▸ hbelow⟩

lemma armed_run (msg url : String) (evs : List Event) (w : World) (h : Armed url w) :
    Armed url (run msg w evs) := by
  induction evs generalizing w with
  | nil => exact h
  | cons ev evs ih => exact ih (step msg w ev) (armed_step msg url w ev h)

/-- The log produced by `n` runs of the `popstate` handler at location `url`. -/
def popstateLog (msg url : String) : Nat → List Call
  | 0 => []
  | n + 1 => Call.pushState none none url :: Call.alert msg :: popstateLog msg url n

lemma popstateLog_counts (msg url : String) (n : Nat) :
    countPushState (popstateLog msg url n) = n ∧ countAlert (popstateLog msg url n) = n := by
  induction n with
  | zero => exact ⟨rfl, rfl⟩
  | succ n ih => simp [popstateLog, countPushState, countAlert, ih.1, ih.2]

lemma run_popstates (msg url : String) (evs : List PopStateEvent) (w : World)
    (h : Armed url w) :
    (run msg w (evs.map Event.popstate)).calls = w.calls ++ popstateLog msg url evs.length := by
  induction evs generalizing w with
  | nil => simp [run, popstateLog]
  | cons ev evs ih =>
    have h1 := armed_step msg url w (Event.popstate ev) h
    have hloc : location_href w = url := by simp [location_href, h.2.2.1]
    have hrun : run msg w ((ev :: evs).map Event.popstate)
        = run msg (step msg w (Event.popstate ev)) (evs.map Event.popstate) := rfl
    rw [hrun, ih _ h1]
    simp [step, dispatchPopstate, h.1, onpopstate_calls, hloc, popstateLog]

lemma keydownListener_elsewhere (e : KeyEvent) (w : World)
    (hkey : e.key = some "Backspace")
    (hinput : e.target.tagName ≠ some "INPUT") (harea : e.target.tagName ≠ some "TEXTAREA") :
    (keydownListener e w).calls = w.calls ++ [Call.preventDefault] := by
  obtain ⟨key, tag, ce⟩ := e
  simp only at hkey hinput harea
  subst hkey
  cases tag with
  | none => simp [keydownListener, includes, preventDefault]
  | some t =>
    have h1 : t ≠ "INPUT" := fun h => hinput (by rw [h])
    have h2 : t ≠ "TEXTAREA" := fun h => harea (by rw [h])
    simp [keydownListener, includes, preventDefault, h1, h2]

lemma keydownListener_field (e : KeyEvent) (w : World)
    (hkey : e.key = some "Backspace")
    (htag : e.target.tagName = some "INPUT" ∨ e.target.tagName = some "TEXTAREA") :
    keydownListener e w = w := by
  rcases htag with h | h <;> simp [keydownListener, includes, hkey, h]

/-! ## The claims -/

/-- C1: a `popstate` event delivered to the installed handler makes exactly two host calls,
one `history.pushState(null, null, location.href)` and one `alert` with the rendered
message, and afterwards the top entry of the history stack is the current entry and has
the current URL, which is the URL the page had before the event. -/
theorem popstate_pushes_and_alerts_once (msg : String) (ev : PopStateEvent) (w : World)
    (hset : w.onpopstateSet = true) :
    (dispatchPopstate msg ev w).calls
        = w.calls ++ [Call.pushState none none (location_href w), Call.alert msg] ∧
      (dispatchPopstate msg ev w).history.top = { state := none, url := location_href w } ∧
      (dispatchPopstate msg ev w).history.top = (dispatchPopstate msg ev w).history.current ∧
      (dispatchPopstate msg ev w).history.top.url = location_href (dispatchPopstate msg ev w) ∧
      location_href (dispatchPopstate msg ev w) = location_href w := by
  simp only [dispatchPopstate, hset, if_true]
  refine ⟨onpopstate_calls msg ev w, ?_, ?_, ?_, ?_⟩ <;>
    simp [location_href, onpopstate_history, History.push, History.top]

/-- On the example page, once the script has run, a delivered `popstate` event adds one
`pushState` for `/task` and one `alert` to the log. -/
theorem popstate_pushes_and_alerts_once_witness :
    (init page0).onpopstateSet = true ∧
      (dispatchPopstate "Please continue forward." { state := none } (init page0)).calls
        = (init page0).calls
            ++ [Call.pushState none none "/task", Call.alert "Please continue forward."] :=
  ⟨rfl, (popstate_pushes_and_alerts_once "Please continue forward." { state := none }
    (init page0) rfl).1⟩

/-- C2: on a Backspace `keydown` whose target has a `tagName` other than `INPUT` and
`TEXTAREA` (or none at all), the listener calls `preventDefault` exactly once and makes
no other call. -/
theorem backspace_elsewhere_prevented_once (e : KeyEvent) (w : World)
    (hkey : e.key = some "Backspace")
    (hinput : e.target.tagName ≠ some "INPUT") (harea : e.target.tagName ≠ some "TEXTAREA") :
    (keydownListener e w).calls = w.calls ++ [Call.preventDefault] :=
  keydownListener_elsewhere e w hkey hinput harea

/-- Backspace on the body of the example page: one `preventDefault`. -/
theorem backspace_elsewhere_prevented_once_witness :
    (keydownListener backspaceOnBody page0).calls = page0.calls ++ [Call.preventDefault] :=
  backspace_elsewhere_prevented_once backspaceOnBody page0 rfl (by decide) (by decide)

/-- C3: on a Backspace `keydown` whose target has `tagName` `INPUT` or `TEXTAREA`, the
listener does nothing at all: no `preventDefault`, the page is left as it was. -/
theorem backspace_in_field_not_prevented (e : KeyEvent) (w : World)
    (hkey : e.key = some "Backspace")
    (htag : e.target.tagName = some "INPUT" ∨ e.target.tagName = some "TEXTAREA") :
    keydownListener e w = w ∧
      countPreventDefault (keydownListener e w).calls = countPreventDefault w.calls :=
  ⟨keydownListener_field e w hkey htag, by rw [keydownListener_field e w hkey htag]⟩

/-- Backspace in a text input of the example page: nothing happens. -/
theorem backspace_in_field_not_prevented_witness :
    keydownListener backspaceInInput page0 = page0 :=
  (backspace_in_field_not_prevented backspaceInInput page0 rfl (Or.inl rfl)).1

/-- C4, as the code and the host have it: running the script on any history makes exactly
one `pushState` call; afterwards the top entry is a new one with null state and the URL of
the page, and it is the current entry. The entries under it are the old entries up to and
including the old current one, unchanged and all kept while they number fewer than the
host's limit; on a longer stack the oldest of them are evicted so that the stack stays
within the limit. -/
theorem init_pushes_one_entry_within_limit (w : World) :
    (init w).calls = w.calls ++ [Call.pushState none none (location_href w)] ∧
      (init w).history.entries
        = (w.history.entries.take (w.history.position + 1)).drop
              (w.history.position + 1 - (maxSessionHistoryEntries - 1))
            ++ [{ state := none, url := location_href w }] ∧
      (init w).history.top = { state := none, url := location_href w } ∧
      (init w).history.top = (init w).history.current ∧
      (init w).history.position = min (w.history.position + 1) (maxSessionHistoryEntries - 1) ∧
      (init w).history.entries.length ≤ maxSessionHistoryEntries ∧
      location_href (init w) = location_href w := by
  have hlen : (init w).history.below.length < maxSessionHistoryEntries :=
    push_below_length none (location_href w) w.history
  refine ⟨rfl, ?_, rfl, rfl, ?_, ?_, rfl⟩
  · have hentries : (init w).history.entries
        = ((w.history.current :: w.history.below).take (maxSessionHistoryEntries - 1)).reverse
            ++ [{ state := none, url := location_href w }] := rfl
    rw [hentries, entries_upto_current, List.reverse_take]
    rfl
  · have hpos : (init w).history.position
        = ((w.history.current :: w.history.below).take
            (maxSessionHistoryEntries - 1)).length := rfl
    rw [hpos, List.length_take, Nat.min_comm]
    rfl
  · have hentries : (init w).history.entries.length = (init w).history.below.length + 1 := by
      simp [init, history_pushState, History.push, History.entries]
    omega

/-- C4 as stated fails on a full history: the page is loaded on a stack of 50 entries whose
oldest is `/consent`; after the script has run the stack still has 50 entries, the current
one at index 49, and its oldest entry is now `/bare`: the entries under the new top are
not the old ones. -/
theorem init_on_full_history_evicts_oldest :
    fullPage.history.entries.length = 50 ∧
      fullPage.history.entries.head? = some { state := none, url := "/consent" } ∧
      (init fullPage).history.entries.length = 50 ∧
      (init fullPage).history.position = 49 ∧
      (init fullPage).history.entries.head? = some { state := none, url := "/bare" } ∧
      (init fullPage).history.entries
        ≠ fullPage.history.entries.take (fullPage.history.position + 1)
            ++ [{ state := none, url := location_href fullPage }] ∧
      (init fullPage).history.position ≠ fullPage.history.position + 1 := by
  decide

/-- C5: after the script has run, any sequence of `popstate` events produces one
`pushState` call and one `alert` call per event, in that order and nothing else, and the
handler is still installed at the end. -/
theorem every_popstate_repushes_and_alerts (msg : String) (w : World)
    (evs : List PopStateEvent) :
    (run msg (init w) (evs.map Event.popstate)).calls
        = (init w).calls ++ popstateLog msg (location_href w) evs.length ∧
      countPushState (popstateLog msg (location_href w) evs.length) = evs.length ∧
      countAlert (popstateLog msg (location_href w) evs.length) = evs.length ∧
      (run msg (init w) (evs.map Event.popstate)).onpopstateSet = true :=
  ⟨run_popstates msg (location_href w) evs (init w) (armed_init w),
    (popstateLog_counts msg (location_href w) evs.length).1,
    (popstateLog_counts msg (location_href w) evs.length).2,
    (armed_run msg (location_href w) (evs.map Event.popstate) (init w) (armed_init w)).1⟩

/-- C6: in every state reached from a page on which the script has run, by any sequence of
handled events (back attempts, `popstate` events, key presses), the current history entry
is the top of the stack, its URL is the current location, its state is null, and the
location is still the one the page was loaded at. -/
theorem top_entry_points_at_location (msg : String) (w : World) (evs : List Event) :
    (run msg (init w) evs).history.above = [] ∧
      (run msg (init w) evs).history.top = (run msg (init w) evs).history.current ∧
      (run msg (init w) evs).history.position + 1
        = (run msg (init w) evs).history.entries.length ∧
      (run msg (init w) evs).history.top.url = location_href (run msg (init w) evs) ∧
      (run msg (init w) evs).history.top.state = none ∧
      location_href (run msg (init w) evs) = location_href w := by
  obtain ⟨_, habove, hcur, _, _⟩ :=
    armed_run msg (location_href w) evs (init w) (armed_init w)
  refine ⟨habove, ?_, ?_, ?_, ?_, ?_⟩ <;>
    simp [History.top, History.position, History.entries, location_href, habove, hcur]

/-- C7: in every state reached from a page on which the script has run, a back attempt
does go back one entry and runs the handler (one `pushState`, one `alert`), and it leaves
the history as it was: same entries, same length, same position; so does any number of
back attempts in a row. -/
theorem back_attempt_leaves_history (msg : String) (w : World) (evs : List Event) (n : Nat) :
    (run msg (init w) evs).history.back.isSome = true ∧
      (step msg (run msg (init w) evs) Event.back).calls
        = (run msg (init w) evs).calls
            ++ [Call.pushState none none (location_href w), Call.alert msg] ∧
      (step msg (run msg (init w) evs) Event.back).history = (run msg (init w) evs).history ∧
      (run msg (run msg (init w) evs) (List.replicate n Event.back)).history
        = (run msg (init w) evs).history ∧
      (run msg (run msg (init w) evs) (List.replicate n Event.back)).history.entries.length
        = (run msg (init w) evs).history.entries.length ∧
      (run msg (run msg (init w) evs) (List.replicate n Event.back)).history.position
        = (run msg (init w) evs).history.position := by
  have harmed := armed_run msg (location_href w) evs (init w) (armed_init w)
  have hn : ∀ k : Nat, ∀ v : World, Armed (location_href w) v →
      (run msg v (List.replicate k Event.back)).history = v.history := by
    intro k
    induction k with
    | zero => intro v _; rfl
    | succ k ih =>
      intro v hv
      have hstep := armed_step msg (location_href w) v Event.back hv
      have hrun : run msg v (List.replicate (k + 1) Event.back)
          = run msg (step msg v Event.back) (List.replicate k Event.back) := rfl
      rw [hrun, ih _ hstep]
      exact (armed_back msg (location_href w) v hv).1
  have hb := armed_back msg (location_href w) _ harmed
  refine ⟨?_, hb.2.2, hb.1, hn n _ harmed, by rw [hn n _ harmed], by rw [hn n _ harmed]⟩
  obtain ⟨_, _, _, _, p, rest, hbelow, _⟩ := harmed
  simp [History.back, hbelow]

/-- C8, as the code has it: on a Backspace `keydown` the listener calls `preventDefault`
(once) exactly when the `tagName` of the event target is neither `INPUT` nor `TEXTAREA`,
and does nothing otherwise; whether the target is editable in another way plays no part,
and neither does the active element of the document. -/
theorem backspace_decided_by_target_tag (e : KeyEvent) (w : World) (a : Target) (b : Bool)
    (hkey : e.key = some "Backspace") :
    ((keydownListener e w).calls = w.calls ++ [Call.preventDefault]
        ↔ (e.target.tagName ≠ some "INPUT" ∧ e.target.tagName ≠ some "TEXTAREA")) ∧
      (keydownListener e w = w
        ↔ (e.target.tagName = some "INPUT" ∨ e.target.tagName = some "TEXTAREA")) ∧
      (keydownListener { e with target := { e.target with isContentEditable := b } } w
        = keydownListener e w) ∧
      (keydownListener e { w with activeElement := a }).calls = (keydownListener e w).calls := by
  by_cases htag : e.target.tagName = some "INPUT" ∨ e.target.tagName = some "TEXTAREA"
  · have h := keydownListener_field e w hkey htag
    have h2 := keydownListener_field e { w with activeElement := a } hkey htag
    refine ⟨?_, ?_, ?_, ?_⟩
    · rw [h]
      constructor
      · intro hc; simp at hc
      · rintro ⟨h1, h2⟩; rcases htag with h3 | h3
        · exact absurd h3 h1
        · exact absurd h3 h2
    · exact ⟨fun _ => htag, fun _ => h⟩
    · rfl
    · rw [h, h2]
  · push_neg at htag
    have h := keydownListener_elsewhere e w hkey htag.1 htag.2
    have h2 := keydownListener_elsewhere e { w with activeElement := a } hkey
      htag.1 htag.2
    refine ⟨⟨fun _ => htag, fun _ => h⟩, ?_, rfl, ?_⟩
    · constructor
      · intro hw; rw [hw] at h; simp at h
      · rintro (h3 | h3)
        · exact absurd h3 htag.1
        · exact absurd h3 htag.2
    · rw [h, h2]

/-- Backspace in a `contenteditable` block of the example page is prevented exactly when its
tag is neither `INPUT` nor `TEXTAREA`. -/
theorem backspace_decided_by_target_tag_witness :
    (keydownListener backspaceInEditableDiv page0).calls
        = page0.calls ++ [Call.preventDefault]
      ↔ (backspaceInEditableDiv.target.tagName ≠ some "INPUT"
          ∧ backspaceInEditableDiv.target.tagName ≠ some "TEXTAREA") :=
  (backspace_decided_by_target_tag backspaceInEditableDiv page0 page0.activeElement true
    rfl).1

/-- C8 as stated fails: Backspace in a `contenteditable` block, an element that accepts
text entry, has its default action prevented; and with a text input as the active element
and the event targeted elsewhere, the default action is prevented as well. -/
theorem editable_block_backspace_prevented :
    textInputCapable backspaceInEditableDiv.target ∧
      (keydownListener backspaceInEditableDiv page0).calls = [Call.preventDefault] ∧
      textInputCapable backspaceInInput.target ∧
      (keydownListener backspaceOnBody
        { page0 with activeElement := backspaceInInput.target }).calls
        = [Call.preventDefault] := by
  decide

/-- C9: one run of the `popstate` handler is the `pushState` call followed by the `alert`
call: the alert is raised in a world whose log already ends with the `pushState` and whose
current and top history entry is already the new one for the current URL. -/
theorem push_precedes_alert (msg : String) (ev : PopStateEvent) (w : World) :
    onpopstate msg ev w = alert msg (history_pushState none none (location_href w) w) ∧
      (history_pushState none none (location_href w) w).calls
        = w.calls ++ [Call.pushState none none (location_href w)] ∧
      (history_pushState none none (location_href w) w).history.top
        = { state := none, url := location_href w } ∧
      (history_pushState none none (location_href w) w).history.above = [] ∧
      (onpopstate msg ev w).calls
        = (w.calls ++ [Call.pushState none none (location_href w)]) ++ [Call.alert msg] := by
  refine ⟨rfl, rfl, rfl, rfl, ?_⟩
  simp [onpopstate, alert, history_pushState]

/-- C10: a `keydown` whose key is not `Backspace` leaves the page exactly as it was, so
`preventDefault` is not called; and a `keydown` of any key, handler run or full delivery,
leaves the history unchanged and adds no `pushState` and no `alert` call to the log. -/
theorem keydown_frame (e other : KeyEvent) (w : World) (hkey : other.key ≠ some "Backspace") :
    keydownListener other w = w ∧
      dispatchKeydown other w = w ∧
      (keydownListener e w).history = w.history ∧
      countPushState (keydownListener e w).calls = countPushState w.calls ∧
      countAlert (keydownListener e w).calls = countAlert w.calls ∧
      (dispatchKeydown e w).history = w.history ∧
      countPushState (dispatchKeydown e w).calls = countPushState w.calls ∧
      countAlert (dispatchKeydown e w).calls = countAlert w.calls := by
  have h : keydownListener other = id := by
    funext v
    simp [keydownListener, hkey]
  obtain ⟨h1, _, h3, h4⟩ := iterate_keydownListener e w.keydownListeners w
  refine ⟨by rw [h]; rfl, ?_, keydownListener_history e w,
    keydownListener_countPushState e w, keydownListener_countAlert e w, h1, h3, h4⟩
  simp [dispatchKeydown, h]

/-- The letter `a` on the body leaves the example page as it was, and Backspace on the body
leaves its history as it was. -/
theorem keydown_frame_witness :
    keydownListener letterOnBody page0 = page0 ∧
      (keydownListener backspaceOnBody page0).history = page0.history :=
  ⟨(keydown_frame backspaceOnBody letterOnBody page0 (by decide)).1,
    (keydown_frame backspaceOnBody letterOnBody page0 (by decide)).2.2.1⟩

end DisableBack
